import Mathlib

/-!
Shallow embedding of the todo-list manager in `src/main.py`: the Todo record,
field normalization, JSON persistence (load/save of one list's backing file),
the per-list store state with its id counter, and the HTTP-handler operations
(create, add, toggle, update, delete on both the JSON-API and HTML-form paths),
together with theorems checking the specification's claims against it.

Python values decoded from JSON are modelled by the inductive `JValue`
(JSON numbers are modelled as integers, which covers every value the
program itself ever writes).  Python's `str()`, `int()` and truthiness
coercions are modelled by `pyStr`, `pyInt` and `pyBool`; `int()` is partial
(`Option`), returning `none` where Python raises `TypeError`/`ValueError`.
A fallible computation returns `Option`, `none` standing for an uncaught
Python exception.
-/

namespace TodoApp

/-- A JSON value as produced by `json.loads` (numbers restricted to integers,
which is all this program ever writes). -/
inductive JValue where
  | null
  | bool (b : Bool)
  | num (n : Int)
  | str (s : String)
  | arr (xs : List JValue)
  | obj (fields : List (String × JValue))

/-- A decoded JSON object: the key/value pairs in source order
(for duplicate keys, `json.loads` keeps the last binding). -/
abbrev JObj := List (String × JValue)

/-- The `Todo` TypedDict of `main.py`. -/
structure Todo where
  id : Int
  title : String
  done : Bool
  state : String
  comment : String
deriving DecidableEq

/-- `ALLOWED_STATES` in `main.py`. -/
def ALLOWED_STATES : List String := ["leerlauf", "in arbeit", "geplant"]

/-- Python `str.strip()` on the character list: drop leading and trailing
whitespace. -/
def pyStripChars (cs : List Char) : List Char :=
  ((cs.dropWhile Char.isWhitespace).reverse.dropWhile Char.isWhitespace).reverse

/-- Python `str.strip()`. -/
def pyStrip (s : String) : String :=
  ⟨pyStripChars s.data⟩

/-- Python `str.lower()` (ASCII letters; every allowed state is ASCII). -/
def pyLower (s : String) : String :=
  ⟨s.data.map Char.toLower⟩

/-- `_normalize_state`: if the trimmed, lower-cased input is an allowed state,
the input is returned as given (`ret = value`); otherwise the default
`"Leerlauf"`. -/
def _normalize_state (value : String) : String :=
  let normalized := pyLower (pyStrip value)
  if ALLOWED_STATES.contains normalized then value else "Leerlauf"

/-- `_normalize_comment`: trim surrounding whitespace. -/
def _normalize_comment (value : String) : String :=
  pyStrip value

mutual

/-- Python `repr()` of a value decoded from JSON (string escaping inside
`repr` of a `str` is elided; no claim depends on it). -/
def pyRepr : JValue → String
  | .null => "None"
  | .bool true => "True"
  | .bool false => "False"
  | .num n => toString n
  | .str s => "'" ++ s ++ "'"
  | .arr xs => "[" ++ pyReprList xs ++ "]"
  | .obj fs => "\x7b" ++ pyReprObj fs ++ "\x7d"

/-- Comma-separated `repr`s of the elements of a Python list. -/
def pyReprList : List JValue → String
  | [] => ""
  | [x] => pyRepr x
  | x :: y :: xs => pyRepr x ++ ", " ++ pyReprList (y :: xs)

/-- Comma-separated `'key': repr(value)` pairs of a Python dict. -/
def pyReprObj : List (String × JValue) → String
  | [] => ""
  | [(k, v)] => "'" ++ k ++ "': " ++ pyRepr v
  | (k, v) :: p :: fs => "'" ++ k ++ "': " ++ pyRepr v ++ ", " ++ pyReprObj (p :: fs)

end

/-- Python `str()` on a value decoded from JSON. -/
def pyStr : JValue → String
  | .str s => s
  | v => pyRepr v

/-- Python `int(s)` on a string: surrounding whitespace allowed, optional
sign, then decimal digits; anything else raises `ValueError` (`none`).
(Underscore digit grouping is not modelled.) -/
def parsePyInt (s : String) : Option Int :=
  match pyStripChars s.data with
  | [] => none
  | c :: cs =>
    let (neg, digits) :=
      if c = '-' then (true, cs)
      else if c = '+' then (false, cs)
      else (false, c :: cs)
    if digits.isEmpty then none
    else if digits.all Char.isDigit then
      let n : Nat := digits.foldl (fun acc d => acc * 10 + (d.toNat - 48)) 0
      some (if neg then -(n : Int) else (n : Int))
    else none

/-- Python `int()` on a value decoded from JSON: `none` models the
`TypeError`/`ValueError` raised on `None`, lists, dicts and non-numeric
strings. -/
def pyInt : JValue → Option Int
  | .bool b => some (if b then 1 else 0)
  | .num n => some n
  | .str s => parsePyInt s
  | _ => none

/-- Python `bool()` (truthiness) on a value decoded from JSON. -/
def pyBool : JValue → Bool
  | .null => false
  | .bool b => b
  | .num n => n != 0
  | .str s => s != ""
  | .arr xs => !xs.isEmpty
  | .obj fs => !fs.isEmpty

/-- The binding a Python dict built by `json.loads` holds for `key`:
the last pair with that key, if any. -/
def lastBinding (d : JObj) (key : String) : Option JValue :=
  match d with
  | [] => none
  | (k, v) :: rest =>
    match lastBinding rest key with
    | some w => some w
    | none => if k = key then some v else none

/-- Python `d.get(key, dflt)`. -/
def dictGet (d : JObj) (key : String) (dflt : JValue) : JValue :=
  (lastBinding d key).getD dflt

/-- Python `d.get(key)` as used by the PATCH handler: `None` (here `none`)
both when the key is absent and when its value is JSON `null`. -/
def jsonGet (d : JObj) (key : String) : Option JValue :=
  match lastBinding d key with
  | some JValue.null => none
  | some v => some v
  | none => none

/-- `_normalize_todo`: defensive per-field coercion of one persisted record;
`none` models the uncaught `TypeError`/`ValueError` from `int(...)` on a
non-coercible `id` value. -/
def _normalize_todo (raw : JObj) : Option Todo :=
  match pyInt (dictGet raw "id" (JValue.num 0)) with
  | none => none
  | some i =>
    some { id := i
           title := pyStrip (pyStr (dictGet raw "title" (JValue.str "")))
           done := pyBool (dictGet raw "done" (JValue.bool false))
           state := _normalize_state (pyStr (dictGet raw "state" (JValue.str "Leerlauf")))
           comment := _normalize_comment (pyStr (dictGet raw "comment" (JValue.str ""))) }

/-- What reading one list's backing file can yield: no file, an `OSError`,
text that `json.loads` rejects, or a decoded JSON value. -/
inductive FileState where
  | absent
  | unreadable
  | malformed
  | content (v : JValue)

/-- One list's entry in `_list_states`: the ordered todo sequence plus the
current value of its `itertools.count` id counter (the next id to hand out). -/
structure ListState where
  todos : List Todo
  nextId : Int
deriving DecidableEq

/-- The generator expression inside `_load_from_file`'s `todos.extend(...)`:
skip non-dict elements, normalize dict elements; `none` when a record's
normalization raises. -/
def normalizeLoaded : List JValue → Option (List Todo)
  | [] => some []
  | JValue.obj fields :: rest =>
    match _normalize_todo fields with
    | none => none
    | some t => (normalizeLoaded rest).map (t :: ·)
  | _ :: rest => normalizeLoaded rest

/-- `max((todo["id"] for todo in todos), default=0)`. -/
def maxIdAux (acc : Int) : List Todo → Int
  | [] => acc
  | t :: ts => maxIdAux (max acc t.id) ts

/-- `max((todo["id"] for todo in todos), default=0)`. -/
def maxId : List Todo → Int
  | [] => 0
  | t :: ts => maxIdAux t.id ts

/-- `_load_from_file` for one list, as a function of what its backing file
holds: a missing, unreadable or unparsable file and non-array JSON all give
the empty list; an array is filtered and normalized element-wise.  The id
counter is seeded at `max(ids) + 1`.  `none` models an uncaught exception
from record normalization. -/
def _load_from_file (fs : FileState) : Option ListState :=
  match fs with
  | .absent => some ⟨[], 1⟩
  | .unreadable => some ⟨[], 1⟩
  | .malformed => some ⟨[], 1⟩
  | .content v =>
    match v with
    | .arr xs => (normalizeLoaded xs).map (fun ts => ⟨ts, maxId ts + 1⟩)
    | _ => some ⟨[], 1⟩

/-- The JSON object `json.dumps` writes for one todo. -/
def todoToJson (t : Todo) : JValue :=
  JValue.obj [("id", JValue.num t.id), ("title", JValue.str t.title),
              ("done", JValue.bool t.done), ("state", JValue.str t.state),
              ("comment", JValue.str t.comment)]

/-- The JSON array `_save_to_file` writes for a list's todo sequence. -/
def todosToJson (ts : List Todo) : JValue :=
  JValue.arr (ts.map todoToJson)

/-- `_get_todo`: first todo with the given id, linear scan. -/
def find_todo (s : ListState) (todo_id : Int) : Option Todo :=
  s.todos.find? (fun t => t.id == todo_id)

/-- In-place mutation of the first todo with the given id (the object
`_get_todo` returned), as a list transformation. -/
def replaceFirst : List Todo → Int → Todo → List Todo
  | [], _, _ => []
  | x :: xs, i, t => if x.id = i then t :: xs else x :: replaceFirst xs i t

/-- `list.remove(todo)` where `todo` is the first element with the given id. -/
def removeFirst : List Todo → Int → List Todo
  | [], _ => []
  | x :: xs, i => if x.id = i then xs else x :: removeFirst xs i

/-- `create_todo` (POST `/api/todos`): the JSON body's effect on one list's
state.  Result: the created todo (`none` = 400 rejection), the new state, and
whether `_save_to_file` ran. -/
def create_todo (body : JObj) (s : ListState) : Option Todo × ListState × Bool :=
  let title := pyStrip (pyStr (dictGet body "title" (JValue.str "")))
  if title = "" then (none, s, false)
  else
    let state := _normalize_state (pyStr (dictGet body "state" (JValue.str "Leerlauf")))
    let comment := _normalize_comment (pyStr (dictGet body "comment" (JValue.str "")))
    let todo : Todo := ⟨s.nextId, title, false, state, comment⟩
    (some todo, ⟨s.todos ++ [todo], s.nextId + 1⟩, true)

/-- `add_todo` (POST `/add`): form fields (absent = `none`) against one
list's state; new state and whether a save ran. -/
def add_todo (fTitle fState fComment : Option String) (s : ListState) :
    ListState × Bool :=
  let title := pyStrip (fTitle.getD "")
  let state := _normalize_state (fState.getD "Leerlauf")
  let comment := _normalize_comment (fComment.getD "")
  if title = "" then (s, false)
  else (⟨s.todos ++ [⟨s.nextId, title, false, state, comment⟩], s.nextId + 1⟩, true)

/-- `toggle_todo` (POST `/toggle/{id}`): flip `done` on the first todo with
the id; silently no-op when absent. -/
def toggle_todo (todo_id : Int) (s : ListState) : Option Todo × ListState × Bool :=
  match find_todo s todo_id with
  | none => (none, s, false)
  | some t =>
    let t' : Todo := { t with done := !t.done }
    (some t', ⟨replaceFirst s.todos todo_id t', s.nextId⟩, true)

/-- `update_todo_html` (POST `/update/{id}`): a blank/absent title is
ignored, while state and comment are always overwritten from the form
(defaults `"Leerlauf"` and `""`); saves whenever the todo exists. -/
def update_todo_html (todo_id : Int) (fTitle fState fComment : Option String)
    (s : ListState) : Option Todo × ListState × Bool :=
  match find_todo s todo_id with
  | none => (none, s, false)
  | some t =>
    let title := pyStrip (fTitle.getD "")
    let t1 := if title = "" then t else { t with title := title }
    let t2 := { t1 with state := _normalize_state (fState.getD "Leerlauf") }
    let t3 := { t2 with comment := _normalize_comment (fComment.getD "") }
    (some t3, ⟨replaceFirst s.todos todo_id t3, s.nextId⟩, true)

/-- `delete_todo` (POST `/delete/{id}`): remove the first todo with the id;
silently no-op when absent. -/
def delete_todo (todo_id : Int) (s : ListState) : ListState × Bool :=
  match find_todo s todo_id with
  | none => (s, false)
  | some _ => (⟨removeFirst s.todos todo_id, s.nextId⟩, true)

/-- `update_todo` (PATCH `/api/todos/{id}`): each present (non-`null`) body
field is applied; a present-but-blank title is ignored; the save runs iff
any of the four fields is present; `none` in the first component = 404 with
nothing mutated or saved. -/
def update_todo (todo_id : Int) (body : JObj) (s : ListState) :
    Option Todo × ListState × Bool :=
  let done := jsonGet body "done"
  let title := jsonGet body "title"
  let state := jsonGet body "state"
  let comment := jsonGet body "comment"
  match find_todo s todo_id with
  | none => (none, s, false)
  | some t0 =>
    let t1 :=
      match title with
      | some v =>
        let nt := pyStrip (pyStr v)
        if nt = "" then t0 else { t0 with title := nt }
      | none => t0
    let t2 := match done with
      | some v => { t1 with done := pyBool v }
      | none => t1
    let t3 := match state with
      | some v => { t2 with state := _normalize_state (pyStr v) }
      | none => t2
    let t4 := match comment with
      | some v => { t3 with comment := _normalize_comment (pyStr v) }
      | none => t3
    let saved := title.isSome || done.isSome || state.isSome || comment.isSome
    (some t4, ⟨replaceFirst s.todos todo_id t4, s.nextId⟩, saved)

/-- `delete_todo_api` (DELETE `/api/todos/{id}`): `false` in the first
component = 404 with nothing mutated or saved. -/
def delete_todo_api (todo_id : Int) (s : ListState) : Bool × ListState × Bool :=
  match find_todo s todo_id with
  | none => (false, s, false)
  | some _ => (true, ⟨removeFirst s.todos todo_id, s.nextId⟩, true)

/-- One mutating request against a list, for reasoning about request traces. -/
inductive Op where
  | createApi (body : JObj)
  | addForm (fTitle fState fComment : Option String)
  | patchApi (todo_id : Int) (body : JObj)
  | toggleForm (todo_id : Int)
  | updateForm (todo_id : Int) (fTitle fState fComment : Option String)
  | deleteForm (todo_id : Int)
  | deleteApi (todo_id : Int)

/-- The state after one request (discarding the response). -/
def applyOp (s : ListState) : Op → ListState
  | .createApi body => (create_todo body s).2.1
  | .addForm fT fS fC => (add_todo fT fS fC s).1
  | .patchApi i body => (update_todo i body s).2.1
  | .toggleForm i => (toggle_todo i s).2.1
  | .updateForm i fT fS fC => (update_todo_html i fT fS fC s).2.1
  | .deleteForm i => (delete_todo i s).1
  | .deleteApi i => (delete_todo_api i s).2.1

/-- The state after a sequence of requests. -/
def runOps (s : ListState) (ops : List Op) : ListState :=
  ops.foldl applyOp s

/-- The store invariant: the id counter is strictly above every live id. -/
def Inv (s : ListState) : Prop :=
  ∀ t ∈ s.todos, t.id < s.nextId

/-- The process-wide mutable environment relevant to `reset_state`: each
configured list's backing file (keyed by list id) and `_list_states`. -/
structure World where
  files : String → FileState
  states : String → Option ListState

/-- `_ensure_list_loaded`: load a list from its file on first access. -/
def _ensure_list_loaded (list_id : String) (w : World) : Option World :=
  match w.states list_id with
  | some _ => some w
  | none =>
    match _load_from_file (w.files list_id) with
    | none => none
    | some st => some ⟨w.files, fun l => if l = list_id then some st else w.states l⟩

/-- `reset_state`: delete every configured list's backing file, clear
`_list_states`, and reload the default (first-configured) list.
`lists` is `LISTS.keys()` in order; it is never empty in the program
(`none` models the `StopIteration` from an empty configuration). -/
def reset_state (lists : List String) (w : World) : Option World :=
  let files1 : String → FileState :=
    fun lid => if lists.contains lid then FileState.absent else w.files lid
  let cleared : World := ⟨files1, fun _ => none⟩
  match lists.head? with
  | some d => _ensure_list_loaded d cleared
  | none => none

/-- A todo already in canonical form: reloading it from disk changes
nothing field-by-field (`title`/`comment` trimmed, `state` fixed by
`_normalize_state`). -/
def NormalizedTodo (t : Todo) : Prop :=
  pyStrip t.title = t.title ∧ _normalize_state t.state = t.state ∧ pyStrip t.comment = t.comment

instance (t : Todo) : Decidable (NormalizedTodo t) := by
  unfold NormalizedTodo; infer_instance

/-! ### Helper lemmas -/

theorem le_maxIdAux (acc : Int) (ts : List Todo) : acc ≤ maxIdAux acc ts := by
  induction ts generalizing acc with
  | nil => simp [maxIdAux]
  | cons t ts ih =>
    calc acc ≤ max acc t.id := le_max_left _ _
    _ ≤ maxIdAux (max acc t.id) ts := ih _

theorem mem_le_maxIdAux {t : Todo} {ts : List Todo} (acc : Int) (h : t ∈ ts) :
    t.id ≤ maxIdAux acc ts := by
  induction ts generalizing acc with
  | nil => cases h
  | cons x xs ih =>
    rcases List.mem_cons.mp h with rfl | h'
    · calc t.id ≤ max acc t.id := le_max_right _ _
      _ ≤ maxIdAux (max acc t.id) xs := le_maxIdAux _ _
    · exact ih _ h'

theorem mem_le_maxId {t : Todo} {ts : List Todo} (h : t ∈ ts) : t.id ≤ maxId ts := by
  cases ts with
  | nil => cases h
  | cons x xs =>
    rcases List.mem_cons.mp h with rfl | h'
    · exact le_maxIdAux _ _
    · exact mem_le_maxIdAux _ h'

theorem load_shape {fs : FileState} {st : ListState}
    (h : _load_from_file fs = some st) : st.nextId = maxId st.todos + 1 := by
  cases fs with
  | absent => cases h; rfl
  | unreadable => cases h; rfl
  | malformed => cases h; rfl
  | content v =>
    cases v with
    | arr xs =>
      simp only [_load_from_file] at h
      cases hn : normalizeLoaded xs with
      | none => rw [hn] at h; cases h
      | some ts => rw [hn] at h; cases h; rfl
    | null => cases h; rfl
    | bool b => cases h; rfl
    | num n => cases h; rfl
    | str s => cases h; rfl
    | obj fields => cases h; rfl

theorem load_inv {fs : FileState} {st : ListState}
    (h : _load_from_file fs = some st) : Inv st := by
  intro t ht
  have := mem_le_maxId ht
  rw [load_shape h]
  omega

theorem mem_replaceFirst {xs : List Todo} {i : Int} {v u : Todo}
    (h : u ∈ replaceFirst xs i v) : u ∈ xs ∨ u = v := by
  induction xs with
  | nil => simp [replaceFirst] at h
  | cons x xs ih =>
    simp only [replaceFirst] at h
    by_cases hx : x.id = i
    · rw [if_pos hx] at h
      rcases List.mem_cons.mp h with rfl | h'
      · exact Or.inr rfl
      · exact Or.inl (List.mem_cons_of_mem _ h')
    · rw [if_neg hx] at h
      rcases List.mem_cons.mp h with rfl | h'
      · exact Or.inl (List.mem_cons_self _ _)
      · rcases ih h' with h'' | h''
        · exact Or.inl (List.mem_cons_of_mem _ h'')
        · exact Or.inr h''

theorem mem_removeFirst {xs : List Todo} {i : Int} {u : Todo}
    (h : u ∈ removeFirst xs i) : u ∈ xs := by
  induction xs with
  | nil => simp [removeFirst] at h
  | cons x xs ih =>
    simp only [removeFirst] at h
    by_cases hx : x.id = i
    · rw [if_pos hx] at h
      exact List.mem_cons_of_mem _ h
    · rw [if_neg hx] at h
      rcases List.mem_cons.mp h with rfl | h'
      · exact List.mem_cons_self _ _
      · exact List.mem_cons_of_mem _ (ih h')

theorem find_todo_mem {s : ListState} {i : Int} {t : Todo}
    (h : find_todo s i = some t) : t ∈ s.todos :=
  List.mem_of_find?_eq_some h

theorem find_todo_id {s : ListState} {i : Int} {t : Todo}
    (h : find_todo s i = some t) : t.id = i := by
  have := List.find?_some h
  simpa using this

theorem find_todo_eq_none {s : ListState} {i : Int}
    (h : ∀ t ∈ s.todos, t.id ≠ i) : find_todo s i = none := by
  rw [find_todo, List.find?_eq_none]
  intro t ht
  simp [h t ht]

theorem update_todo_found {i : Int} {body : JObj} {s : ListState} {t : Todo}
    (hf : find_todo s i = some t) :
    ∃ u, (update_todo i body s).1 = some u ∧ u.id = t.id ∧
      (update_todo i body s).2.1 = ⟨replaceFirst s.todos i u, s.nextId⟩ ∧
      (update_todo i body s).2.2 =
        ((jsonGet body "title").isSome || (jsonGet body "done").isSome ||
         (jsonGet body "state").isSome || (jsonGet body "comment").isSome) ∧
      ((jsonGet body "state") = none → u.state = t.state) ∧
      ((jsonGet body "comment") = none → u.comment = t.comment) ∧
      (∀ v, jsonGet body "title" = some v → pyStrip (pyStr v) = "" → u.title = t.title) ∧
      (jsonGet body "title" = none → u.title = t.title) := by
  simp only [update_todo, hf]
  rcases hT : jsonGet body "title" with _ | vT <;>
  rcases hD : jsonGet body "done" with _ | vD <;>
  rcases hS : jsonGet body "state" with _ | vS <;>
  rcases hC : jsonGet body "comment" with _ | vC <;>
  simp_all <;> split <;> simp_all

theorem update_todo_html_found {i : Int} {fT fS fC : Option String} {s : ListState}
    {t : Todo} (hf : find_todo s i = some t) :
    ∃ u, (update_todo_html i fT fS fC s).1 = some u ∧ u.id = t.id ∧
      (update_todo_html i fT fS fC s).2.1 = ⟨replaceFirst s.todos i u, s.nextId⟩ ∧
      (update_todo_html i fT fS fC s).2.2 = true ∧
      u.state = _normalize_state (fS.getD "Leerlauf") ∧
      u.comment = pyStrip (fC.getD "") ∧
      (pyStrip (fT.getD "") = "" → u.title = t.title) := by
  simp only [update_todo_html, hf, _normalize_comment]
  split <;> simp_all

theorem toggle_todo_found {i : Int} {s : ListState} {t : Todo}
    (hf : find_todo s i = some t) :
    toggle_todo i s =
      (some { t with done := !t.done },
       ⟨replaceFirst s.todos i { t with done := !t.done }, s.nextId⟩, true) := by
  simp [toggle_todo, hf]

/-- Every operation leaves the id counter where it is or advances it. -/
theorem applyOp_nextId_le (s : ListState) (op : Op) :
    s.nextId ≤ (applyOp s op).nextId := by
  cases op with
  | createApi body =>
    simp only [applyOp, create_todo]
    split <;> simp
  | addForm fT fS fC =>
    simp only [applyOp, add_todo]
    split <;> simp
  | patchApi i body =>
    simp only [applyOp]
    cases hf : find_todo s i with
    | none => simp [update_todo, hf]
    | some t =>
      obtain ⟨u, _, _, h2, _⟩ := @update_todo_found i body s t hf
      simp [h2]
  | toggleForm i =>
    simp only [applyOp]
    cases hf : find_todo s i with
    | none => simp [toggle_todo, hf]
    | some t => simp [toggle_todo_found hf]
  | updateForm i fT fS fC =>
    simp only [applyOp]
    cases hf : find_todo s i with
    | none => simp [update_todo_html, hf]
    | some t =>
      obtain ⟨u, _, _, h2, _⟩ := @update_todo_html_found i fT fS fC s t hf
      simp [h2]
  | deleteForm i =>
    simp only [applyOp, delete_todo]
    cases hf : find_todo s i <;> simp
  | deleteApi i =>
    simp only [applyOp, delete_todo_api]
    cases hf : find_todo s i <;> simp

/-- Every operation preserves the id-counter invariant. -/
theorem applyOp_inv (s : ListState) (op : Op) (h : Inv s) : Inv (applyOp s op) := by
  cases op with
  | createApi body =>
    simp only [applyOp, create_todo]
    split
    · exact h
    · intro u hu
      dsimp only at hu ⊢
      simp only [List.mem_append, List.mem_singleton] at hu
      rcases hu with hu | rfl
      · have := h u hu; omega
      · dsimp only; omega
  | addForm fT fS fC =>
    simp only [applyOp, add_todo]
    split
    · exact h
    · intro u hu
      dsimp only at hu ⊢
      simp only [List.mem_append, List.mem_singleton] at hu
      rcases hu with hu | rfl
      · have := h u hu; omega
      · dsimp only; omega
  | patchApi i body =>
    simp only [applyOp]
    cases hf : find_todo s i with
    | none => simpa [update_todo, hf] using h
    | some t =>
      obtain ⟨u, _, hid, h2, _⟩ := @update_todo_found i body s t hf
      rw [h2]
      intro x hx
      rcases mem_replaceFirst hx with hx' | rfl
      · exact h x hx'
      · rw [hid]; exact h t (find_todo_mem hf)
  | toggleForm i =>
    simp only [applyOp]
    cases hf : find_todo s i with
    | none => simpa [toggle_todo, hf] using h
    | some t =>
      rw [toggle_todo_found hf]
      intro x hx
      rcases mem_replaceFirst hx with hx' | rfl
      · exact h x hx'
      · exact h t (find_todo_mem hf)
  | updateForm i fT fS fC =>
    simp only [applyOp]
    cases hf : find_todo s i with
    | none => simpa [update_todo_html, hf] using h
    | some t =>
      obtain ⟨u, _, hid, h2, _⟩ := @update_todo_html_found i fT fS fC s t hf
      rw [h2]
      intro x hx
      rcases mem_replaceFirst hx with hx' | rfl
      · exact h x hx'
      · rw [hid]; exact h t (find_todo_mem hf)
  | deleteForm i =>
    simp only [applyOp, delete_todo]
    cases hf : find_todo s i with
    | none => simpa using h
    | some t =>
      intro x hx
      simp only at hx
      exact h x (mem_removeFirst hx)
  | deleteApi i =>
    simp only [applyOp, delete_todo_api]
    cases hf : find_todo s i with
    | none => simpa using h
    | some t =>
      intro x hx
      simp only at hx
      exact h x (mem_removeFirst hx)

theorem runOps_inv (s : ListState) (ops : List Op) (h : Inv s) : Inv (runOps s ops) := by
  induction ops generalizing s with
  | nil => exact h
  | cons op ops ih => exact ih _ (applyOp_inv _ _ h)

theorem runOps_nextId_le (s : ListState) (ops : List Op) :
    s.nextId ≤ (runOps s ops).nextId := by
  induction ops generalizing s with
  | nil => exact le_refl _
  | cons op ops ih =>
    calc s.nextId ≤ (applyOp s op).nextId := applyOp_nextId_le _ _
    _ ≤ (runOps (applyOp s op) ops).nextId := ih _

theorem runOps_append (s : ListState) (l₁ l₂ : List Op) :
    runOps s (l₁ ++ l₂) = runOps (runOps s l₁) l₂ :=
  List.foldl_append _ _ _ _

theorem normalize_todo_roundtrip {t : Todo} (h : NormalizedTodo t) :
    _normalize_todo [("id", JValue.num t.id), ("title", JValue.str t.title),
      ("done", JValue.bool t.done), ("state", JValue.str t.state),
      ("comment", JValue.str t.comment)] = some t := by
  obtain ⟨h1, h2, h3⟩ := h
  have hb : _normalize_todo [("id", JValue.num t.id), ("title", JValue.str t.title),
      ("done", JValue.bool t.done), ("state", JValue.str t.state),
      ("comment", JValue.str t.comment)] =
      some ⟨t.id, pyStrip t.title, t.done, _normalize_state t.state, pyStrip t.comment⟩ := rfl
  rw [hb, h1, h2, h3]

theorem normalizeLoaded_roundtrip {ts : List Todo} (h : ∀ t ∈ ts, NormalizedTodo t) :
    normalizeLoaded (ts.map todoToJson) = some ts := by
  induction ts with
  | nil => rfl
  | cons t ts ih =>
    simp only [List.map_cons, todoToJson, normalizeLoaded]
    rw [normalize_todo_roundtrip (h t (List.mem_cons_self _ _)),
        ih (fun u hu => h u (List.mem_cons_of_mem _ hu))]
    rfl

theorem removeFirst_id_not_mem {xs : List Todo} {i : Int}
    (hc : xs.countP (fun t => t.id == i) ≤ 1) :
    ∀ u ∈ removeFirst xs i, u.id ≠ i := by
  induction xs with
  | nil => intro u hu; cases hu
  | cons x xs ih =>
    intro u hu
    simp only [removeFirst] at hu
    by_cases hx : x.id = i
    · rw [if_pos hx] at hu
      rw [List.countP_cons_of_pos _ _ (by simp [hx])] at hc
      have hz : xs.countP (fun t => t.id == i) = 0 := by omega
      have := List.countP_eq_zero.mp hz u hu
      simpa using this
    · rw [if_neg hx] at hu
      rw [List.countP_cons_of_neg _ _ (by simp [hx])] at hc
      rcases List.mem_cons.mp hu with rfl | hu'
      · exact hx
      · exact ih hc u hu'

/-! ### Claim theorems -/

/-- C1: for every list, loading seeds the id counter at `max(existing ids) + 1`
(`1` when the loaded list is empty), and every successful create after any
sequence of requests returns a todo whose id is strictly greater than the id
of every todo present at any earlier point — including todos deleted in the
meantime. -/
theorem C1_create_id_exceeds_all_seen (fs : FileState) (st : ListState)
    (hload : _load_from_file fs = some st) :
    (st.todos = [] → st.nextId = 1) ∧
    st.nextId = maxId st.todos + 1 ∧
    ∀ (ops : List Op) (k : Nat) (t : Todo) (body : JObj) (u : Todo),
      t ∈ (runOps st (ops.take k)).todos →
      (create_todo body (runOps st ops)).1 = some u →
      t.id < u.id := by
  refine ⟨?_, load_shape hload, ?_⟩
  · intro hempty
    have := load_shape hload
    rw [hempty] at this
    simpa [maxId] using this
  · intro ops k t body u hmem hcreate
    have h1 : t.id < (runOps st (ops.take k)).nextId :=
      runOps_inv _ _ (load_inv hload) t hmem
    have h2 : (runOps st (ops.take k)).nextId ≤ (runOps st ops).nextId := by
      conv_rhs => rw [← List.take_append_drop k ops]
      rw [runOps_append]
      exact runOps_nextId_le _ _
    have h3 : u.id = (runOps st ops).nextId := by
      simp only [create_todo] at hcreate
      split at hcreate
      · cases hcreate
      · simp only [Option.some.injEq] at hcreate
        rw [← hcreate]
    omega

/-- C1 witness: a list loaded from a file holding id 5 seeds its counter at 6;
after deleting that todo, a create hands out id 6 > 5. -/
theorem C1_witness :
    (Todo.mk 5 "a" false "Leerlauf" "").id < (Todo.mk 6 "b" false "Leerlauf" "").id := by
  have h := C1_create_id_exceeds_all_seen
    (FileState.content (JValue.arr [JValue.obj [("id", JValue.num 5), ("title", JValue.str "a")]]))
    ⟨[⟨5, "a", false, "Leerlauf", ""⟩], 6⟩ rfl
  exact h.2.2 [Op.deleteApi 5] 0 _ [("title", JValue.str "b")] _ (by decide) rfl

/-- C2: a create whose title is blank after trimming is rejected — 400 and no
mutation or save on the API path, silent no-op on the form path; a non-blank
title appends to the end of the list a todo with the next allocated id, the
trimmed title, `done = false` and the normalized state and comment, advances
the counter, saves the list, and returns the new todo. -/
theorem C2_create_spec (body : JObj) (fT fS fC : Option String) (s : ListState) :
    (pyStrip (pyStr (dictGet body "title" (JValue.str ""))) = "" →
      create_todo body s = (none, s, false)) ∧
    (pyStrip (fT.getD "") = "" → add_todo fT fS fC s = (s, false)) ∧
    (pyStrip (pyStr (dictGet body "title" (JValue.str ""))) ≠ "" →
      create_todo body s =
        (some ⟨s.nextId, pyStrip (pyStr (dictGet body "title" (JValue.str ""))), false,
              _normalize_state (pyStr (dictGet body "state" (JValue.str "Leerlauf"))),
              pyStrip (pyStr (dictGet body "comment" (JValue.str "")))⟩,
         ⟨s.todos ++
            [⟨s.nextId, pyStrip (pyStr (dictGet body "title" (JValue.str ""))), false,
              _normalize_state (pyStr (dictGet body "state" (JValue.str "Leerlauf"))),
              pyStrip (pyStr (dictGet body "comment" (JValue.str "")))⟩],
          s.nextId + 1⟩,
         true)) ∧
    (pyStrip (fT.getD "") ≠ "" →
      add_todo fT fS fC s =
        (⟨s.todos ++
            [⟨s.nextId, pyStrip (fT.getD ""), false,
              _normalize_state (fS.getD "Leerlauf"), pyStrip (fC.getD "")⟩],
          s.nextId + 1⟩,
         true)) := by
  refine ⟨?_, ?_, ?_, ?_⟩ <;> intro h <;>
    simp [create_todo, add_todo, _normalize_comment, h]

/-- C2 witness: a whitespace-only API create is a 400 no-op; a non-blank form
add appends the normalized todo and saves. -/
theorem C2_witness :
    create_todo [("title", JValue.str "   ")] ⟨[], 1⟩ = (none, ⟨[], 1⟩, false) ∧
    add_todo (some " Brot ") (some "geplant") (some " bald ") ⟨[], 1⟩ =
      (⟨[⟨1, "Brot", false, "geplant", "bald"⟩], 2⟩, true) := by
  constructor
  · exact (C2_create_spec [("title", JValue.str "   ")] none none none ⟨[], 1⟩).1 (by decide)
  · have h := (C2_create_spec [] (some " Brot ") (some "geplant") (some " bald ") ⟨[], 1⟩).2.2.2
      (by decide)
    rw [h]
    rfl

/-- C3 counterexample: for `" Geplant "` the trimmed lower-cased form is in
the allowed set, but `_normalize_state` returns the input *untrimmed* —
`" Geplant "`, not the trimmed `"Geplant"` the claim requires. -/
theorem C3_counterexample :
    ALLOWED_STATES.contains (pyLower (pyStrip " Geplant ")) = true ∧
    _normalize_state " Geplant " ≠ pyStrip " Geplant " := by decide

/-- C3 amended: `_normalize_state` returns the input *exactly as given*
(neither trimmed nor lower-cased) whenever its trimmed lower-cased form is in
the allowed state set, and the default state `"Leerlauf"` otherwise; it is
total, so it never raises. -/
theorem C3_normalize_state_spec (x : String) :
    (ALLOWED_STATES.contains (pyLower (pyStrip x)) = true → _normalize_state x = x) ∧
    (ALLOWED_STATES.contains (pyLower (pyStrip x)) = false →
      _normalize_state x = "Leerlauf") := by
  constructor <;> intro h <;> simp only [_normalize_state, h] <;> simp

/-- C3 witness: a valid state passes through unchanged (casing and padding
kept); an invalid one falls back to the default. -/
theorem C3_witness :
    _normalize_state " Geplant " = " Geplant " ∧ _normalize_state "done" = "Leerlauf" :=
  ⟨(C3_normalize_state_spec " Geplant ").1 (by decide),
   (C3_normalize_state_spec "done").2 (by decide)⟩

/-- C4 counterexample: a PATCH supplying `done = true` to a todo that is
already done changes nothing — the resulting state equals the old one
field-by-field — yet the save flag is `true`: the file is rewritten although
no field actually changed, contradicting the claimed no-op write avoidance. -/
theorem C4_counterexample :
    update_todo 1 [("done", JValue.bool true)] ⟨[⟨1, "a", true, "Leerlauf", ""⟩], 2⟩ =
      (some ⟨1, "a", true, "Leerlauf", ""⟩, ⟨[⟨1, "a", true, "Leerlauf", ""⟩], 2⟩, true) := by
  decide

/-- C4 amended: on a PATCH of an existing todo the backing file is rewritten
exactly when at least one of the four fields is supplied (present and
non-`null`) in the request body — regardless of whether any supplied value
differs from the todo's current value; only a body supplying none of the four
fields skips the write. -/
theorem C4_update_saves_iff_field_supplied (i : Int) (body : JObj) (s : ListState)
    (t : Todo) (hf : find_todo s i = some t) :
    (update_todo i body s).2.2 =
      ((jsonGet body "title").isSome || (jsonGet body "done").isSome ||
       (jsonGet body "state").isSome || (jsonGet body "comment").isSome) := by
  obtain ⟨u, _, _, _, h4, _⟩ := @update_todo_found i body s t hf
  exact h4

/-- C4 witness: a PATCH whose body supplies no known field (only an unknown
key) skips the write; the no-change PATCH of the counterexample still writes. -/
theorem C4_witness :
    (update_todo 1 [("other", JValue.str "x")] ⟨[⟨1, "a", true, "Leerlauf", ""⟩], 2⟩).2.2
        = false ∧
    (update_todo 1 [("done", JValue.bool true)] ⟨[⟨1, "a", true, "Leerlauf", ""⟩], 2⟩).2.2
        = true := by
  constructor
  · exact (C4_update_saves_iff_field_supplied 1 [("other", JValue.str "x")]
      ⟨[⟨1, "a", true, "Leerlauf", ""⟩], 2⟩ ⟨1, "a", true, "Leerlauf", ""⟩ rfl).trans (by decide)
  · exact (C4_update_saves_iff_field_supplied 1 [("done", JValue.bool true)]
      ⟨[⟨1, "a", true, "Leerlauf", ""⟩], 2⟩ ⟨1, "a", true, "Leerlauf", ""⟩ rfl).trans (by decide)

/-- C5 counterexample: starting from a world whose default list's backing
file exists, `reset_state` leaves that file *absent* — it deletes it and
reloads the list lazily without ever writing; in particular no empty
persisted list (the file state `content (todosToJson [])` a save of the empty
list would produce) is written, contradicting the claim's last conjunct. -/
theorem C5_counterexample :
    (reset_state ["default"]
        ⟨fun _ => FileState.content (todosToJson [⟨1, "a", false, "Leerlauf", ""⟩]),
         fun _ => none⟩).map (fun w => w.files "default") = some FileState.absent ∧
    FileState.absent ≠ FileState.content (todosToJson []) :=
  ⟨rfl, fun h => FileState.noConfusion h⟩

/-- C5 amended: after reset every configured list's backing file has been
deleted, the in-memory registry holds only the default list — reloaded empty
with its id counter at 1 — and nothing is written: each backing file is left
absent, so every configured list reloads as empty with next id 1 on its next
access. -/
theorem C5_reset_spec (d : String) (rest : List String) (w : World) :
    ∃ w', reset_state (d :: rest) w = some w' ∧
      (∀ lid, (d :: rest).contains lid = true → w'.files lid = FileState.absent) ∧
      w'.states d = some ⟨[], 1⟩ ∧
      (∀ lid, lid ≠ d → w'.states lid = none) ∧
      (∀ lid, (d :: rest).contains lid = true →
        _load_from_file (w'.files lid) = some ⟨[], 1⟩) := by
  have hc : (d :: rest).contains d = true := by simp
  refine ⟨⟨fun lid => if (d :: rest).contains lid then FileState.absent else w.files lid,
          fun l => if l = d then some ⟨[], 1⟩ else none⟩, ?_, ?_, ?_, ?_, ?_⟩
  · simp [reset_state, _ensure_list_loaded, hc, _load_from_file]
  · intro lid hl
    simp only [hl]
    simp
  · simp
  · intro lid hl
    simp [hl]
  · intro lid hl
    simp only [hl]
    simp [_load_from_file]

/-- C6: the claim says every object-shaped array element is normalized
field-by-field and kept, and more broadly (with the spec) that persistence
corruption never crashes the load; but on the file content `[{"id": null,
"title": "ok"}]` the load raises an uncaught `TypeError` out of
`int(raw.get("id", 0))` (modelled as `none`) instead of loading the record —
the very loop that guards against non-dict elements and unreadable files
crashes on a dict whose `id` is not coercible to an integer. -/
theorem C6_load_crashes_on_bad_id :
    _load_from_file (FileState.content (JValue.arr
      [JValue.obj [("id", JValue.null), ("title", JValue.str "ok")]])) = none := rfl

/-- C7: saving any sequence of already-normalized todos and loading the
resulting file yields exactly the saved sequence, field-by-field and in
order (and seeds the counter at `max id + 1`). -/
theorem C7_save_load_roundtrip (ts : List Todo) (h : ∀ t ∈ ts, NormalizedTodo t) :
    _load_from_file (FileState.content (todosToJson ts)) = some ⟨ts, maxId ts + 1⟩ := by
  simp only [_load_from_file, todosToJson]
  rw [normalizeLoaded_roundtrip h]
  rfl

/-- C7 witness: a concrete two-todo list round-trips unchanged. -/
theorem C7_witness :
    _load_from_file (FileState.content (todosToJson
      [⟨1, "Brot kaufen", false, "in arbeit", "bald"⟩, ⟨2, "b", true, "Leerlauf", ""⟩])) =
      some ⟨[⟨1, "Brot kaufen", false, "in arbeit", "bald"⟩, ⟨2, "b", true, "Leerlauf", ""⟩], 3⟩ :=
  C7_save_load_roundtrip _ (by decide)

/-- C8: when no todo in the list carries the requested id, PATCH and DELETE
answer 404 and the HTML toggle/update/delete paths silently no-op; in every
case the in-memory sequence is returned unchanged and the save flag is
`false`, so the backing file is untouched.  Deleting again after a
successful delete (of an id the list held at most once) is again a 404
no-op rather than an error. -/
theorem C8_notfound_noop (i : Int) (body : JObj) (fT fS fC : Option String)
    (s : ListState) (h : ∀ t ∈ s.todos, t.id ≠ i) :
    update_todo i body s = (none, s, false) ∧
    delete_todo_api i s = (false, s, false) ∧
    toggle_todo i s = (none, s, false) ∧
    update_todo_html i fT fS fC s = (none, s, false) ∧
    delete_todo i s = (s, false) ∧
    (∀ s₀ s₁, s₀.todos.countP (fun t => t.id == i) ≤ 1 →
      delete_todo_api i s₀ = (true, s₁, true) →
      delete_todo_api i s₁ = (false, s₁, false)) := by
  have hn := find_todo_eq_none h
  refine ⟨?_, ?_, ?_, ?_, ?_, ?_⟩
  · simp [update_todo, hn]
  · simp [delete_todo_api, hn]
  · simp [toggle_todo, hn]
  · simp [update_todo_html, hn]
  · simp [delete_todo, hn]
  · intro s₀ s₁ hc hdel
    simp only [delete_todo_api] at hdel
    cases hf : find_todo s₀ i with
    | none => rw [hf] at hdel; simp at hdel
    | some t =>
      rw [hf] at hdel
      simp only [Prod.mk.injEq] at hdel
      have hs₁ : s₁ = ⟨removeFirst s₀.todos i, s₀.nextId⟩ := hdel.2.1.symm
      have hnone : find_todo s₁ i = none := by
        apply find_todo_eq_none
        intro u hu
        rw [hs₁] at hu
        exact removeFirst_id_not_mem hc u hu
      simp [delete_todo_api, hnone]

/-- C8 witness: id 7 is absent from a one-todo list — PATCH and DELETE are
404 no-ops leaving state and file untouched. -/
theorem C8_witness :
    update_todo 7 [("done", JValue.bool true)] ⟨[⟨1, "a", false, "Leerlauf", ""⟩], 2⟩ =
      (none, ⟨[⟨1, "a", false, "Leerlauf", ""⟩], 2⟩, false) ∧
    delete_todo_api 7 ⟨[⟨1, "a", false, "Leerlauf", ""⟩], 2⟩ =
      (false, ⟨[⟨1, "a", false, "Leerlauf", ""⟩], 2⟩, false) :=
  ⟨(C8_notfound_noop 7 [("done", JValue.bool true)] none none none
      ⟨[⟨1, "a", false, "Leerlauf", ""⟩], 2⟩ (by decide)).1,
   (C8_notfound_noop 7 [("done", JValue.bool true)] none none none
      ⟨[⟨1, "a", false, "Leerlauf", ""⟩], 2⟩ (by decide)).2.1⟩

/-- C9: an update supplying a title that trims to the empty string leaves the
todo's existing title unchanged, on both the PATCH path (title present but
blank) and the HTML form path (title field blank or absent). -/
theorem C9_blank_title_ignored (i : Int) (body : JObj) (v : JValue)
    (fT fS fC : Option String) (s : ListState) (t : Todo)
    (hf : find_todo s i = some t)
    (hb : jsonGet body "title" = some v) (hblank : pyStrip (pyStr v) = "")
    (hform : pyStrip (fT.getD "") = "") :
    (∃ u, (update_todo i body s).1 = some u ∧ u.title = t.title) ∧
    (∃ u, (update_todo_html i fT fS fC s).1 = some u ∧ u.title = t.title) := by
  constructor
  · obtain ⟨u, h1, _, _, _, _, _, h7, _⟩ := @update_todo_found i body s t hf
    exact ⟨u, h1, h7 v hb hblank⟩
  · obtain ⟨u, h1, _, _, _, _, _, h7⟩ :=
      @update_todo_html_found i fT fS fC s t hf
    exact ⟨u, h1, h7 hform⟩

/-- C9 witness: a PATCH with `title = "  "` and a form update with
`title = " "` both keep the existing title `"keep"`. -/
theorem C9_witness :
    (∃ u, (update_todo 1 [("title", JValue.str "  ")]
        ⟨[⟨1, "keep", false, "Leerlauf", ""⟩], 2⟩).1 = some u ∧ u.title = "keep") ∧
    (∃ u, (update_todo_html 1 (some " ") none none
        ⟨[⟨1, "keep", false, "Leerlauf", ""⟩], 2⟩).1 = some u ∧ u.title = "keep") :=
  C9_blank_title_ignored 1 [("title", JValue.str "  ")] (JValue.str "  ")
    (some " ") none none ⟨[⟨1, "keep", false, "Leerlauf", ""⟩], 2⟩
    ⟨1, "keep", false, "Leerlauf", ""⟩ rfl rfl rfl rfl

/-- C10: the HTML update handler overwrites state and comment from the form
unconditionally — a form omitting the state field resets the todo's state to
the default `"Leerlauf"` and a form omitting the comment field resets the
comment to `""` — whereas the PATCH path leaves state and comment untouched
when the body omits them. -/
theorem C10_html_update_overwrites (i : Int) (fT : Option String) (body : JObj)
    (s : ListState) (t : Todo) (hf : find_todo s i = some t)
    (hs : jsonGet body "state" = none) (hc : jsonGet body "comment" = none) :
    (∃ u, (update_todo_html i fT none none s).1 = some u ∧
      u.state = "Leerlauf" ∧ u.comment = "") ∧
    (∃ u, (update_todo i body s).1 = some u ∧
      u.state = t.state ∧ u.comment = t.comment) := by
  constructor
  · obtain ⟨u, h1, _, _, _, h5, h6, _⟩ :=
      @update_todo_html_found i fT none none s t hf
    exact ⟨u, h1, by rw [h5]; rfl, by rw [h6]; rfl⟩
  · obtain ⟨u, h1, _, _, _, h5, h6, _, _⟩ := @update_todo_found i body s t hf
    exact ⟨u, h1, h5 hs, h6 hc⟩

/-- C10 witness: a form update carrying only a title resets state and
comment of a todo that had both set; a PATCH carrying only a title keeps
them. -/
theorem C10_witness :
    (∃ u, (update_todo_html 1 (some "neu") none none
        ⟨[⟨1, "alt", false, "geplant", "wichtig"⟩], 2⟩).1 = some u ∧
      u.state = "Leerlauf" ∧ u.comment = "") ∧
    (∃ u, (update_todo 1 [("title", JValue.str "neu")]
        ⟨[⟨1, "alt", false, "geplant", "wichtig"⟩], 2⟩).1 = some u ∧
      u.state = "geplant" ∧ u.comment = "wichtig") :=
  C10_html_update_overwrites 1 (some "neu") [("title", JValue.str "neu")]
    ⟨[⟨1, "alt", false, "geplant", "wichtig"⟩], 2⟩
    ⟨1, "alt", false, "geplant", "wichtig"⟩ rfl rfl rfl

end TodoApp
